import Mathlib

/-!
Shallow embedding of the icrochet image-to-cross-stitch pipeline
(`src/backend/src/image_to_pattern_vectorised.py`, `src/backend/src/main.py`,
`src/backend/app.py`).

Conventions of the embedding:
* A decoded RGB image (NumPy `H×W×3` integer array) is a `List (List RGB)`
  with `RGB := ℤ × ℤ × ℤ`; rectangularity (`numpy` arrays are rectangular)
  is the explicit predicate `WFImage`.
* Python/NumPy float arithmetic is modelled exactly: float literals such as
  `0.299` become the rationals they denote, divisions are exact divisions in
  `ℚ`, `np.sqrt` becomes `Real.sqrt`.  IEEE-754 rounding is outside the model.
* Fallible code returns `Except Err _` (or `Option _` where Python returns
  `None`); the constructors of `Err` name the Python exception classes the
  code can actually raise, plus the abstract error kinds named by the design
  document (`configError`, `invalidDimension`, `lookupMiss`) which are needed
  to state the spec claims but are produced by no code path.
-/

/-- Error kinds.  The first six name Python exceptions the code can raise;
the last three are the design document's abstract error kinds, which no code
path produces. -/
inductive Err
  | fileNotFoundError
  | yamlError
  | keyError
  | zeroDivisionError
  | indexError
  | valueError
  | configError
  | invalidDimension
  | lookupMiss
deriving DecidableEq, Repr

instance {ε α : Type} [DecidableEq ε] [DecidableEq α] : DecidableEq (Except ε α) :=
  fun x y =>
    match x, y with
    | .ok a, .ok b =>
      if h : a = b then .isTrue (by rw [h]) else .isFalse (by simp [h])
    | .error a, .error b =>
      if h : a = b then .isTrue (by rw [h]) else .isFalse (by simp [h])
    | .ok _, .error _ => .isFalse (by simp)
    | .error _, .ok _ => .isFalse (by simp)

/-- An RGB pixel: three integer channels. -/
abbrev RGB := ℤ × ℤ × ℤ

/-- A decoded image: a list of rows, each row a list of RGB pixels. -/
abbrev Image := List (List RGB)

/-- Number of rows of an image (`img_array.shape[0]`). -/
def imgRows (img : Image) : ℕ := img.length

/-- Number of columns of an image (`img_array.shape[1]`): length of the first
row.  NumPy arrays are rectangular, so all rows share this length; in the
embedding that is the predicate `WFImage`. -/
def imgCols (img : Image) : ℕ := (img.headD []).length

/-- Rectangularity of an image: every row has the common column count. -/
def WFImage (img : Image) : Prop := ∀ row ∈ img, row.length = imgCols img

instance (img : Image) : Decidable (WFImage img) := by
  unfold WFImage; infer_instance

/-- Pixel access `img_array[r, c]` (out-of-range reads return a default;
theorems only read in bounds). -/
def pixel (img : Image) (r c : ℕ) : RGB := (img.getD r []).getD c (0, 0, 0)

/-! ### Hex parsing, as done by
`int(hex_code.lstrip('#')[i:i+2], 16) for i in (0,2,4)` -/

/-- Value of one hexadecimal digit, as accepted by Python `int(_, 16)`. -/
def hexDigitVal (c : Char) : Option ℕ :=
  if '0' ≤ c ∧ c ≤ '9' then some (c.toNat - '0'.toNat)
  else if 'a' ≤ c ∧ c ≤ 'f' then some (c.toNat - 'a'.toNat + 10)
  else if 'A' ≤ c ∧ c ≤ 'F' then some (c.toNat - 'A'.toNat + 10)
  else none

/-- Accumulator loop of `int(s, 16)` over the digits of `s`. -/
def parseHexAux : List Char → ℕ → Option ℕ
  | [], acc => some acc
  | c :: cs, acc =>
    match hexDigitVal c with
    | none => none
    | some v => parseHexAux cs (16 * acc + v)

/-- Python `int(s, 16)` on a plain digit string: fails on the empty string
(`int("", 16)` raises `ValueError`) and on any non-hex character, otherwise
returns the value.  Accepts strings of any positive length. -/
def parseHexNat (cs : List Char) : Option ℕ :=
  match cs with
  | [] => none
  | _ :: _ => parseHexAux cs 0

/-- Python slice `s[i:j]` on a character list. -/
def pySlice (cs : List Char) (i j : ℕ) : List Char := (cs.drop i).take (j - i)

/-- Python `s.lstrip('#')`: drop every leading `#`. -/
def lstripHash (cs : List Char) : List Char := cs.dropWhile (· == '#')

/-- The hex-to-RGB conversion both classifiers perform:
`tuple(int(hex_code.lstrip('#')[i:i+2], 16) for i in (0, 2, 4))`.
Note there is no validation of the total length: a 5-digit hex string leaves
a 1-character third slice, which parses fine; a 4-digit one leaves an empty
third slice, which raises `ValueError`. -/
def hexToRGB (hex : String) : Option RGB :=
  let s := lstripHash hex.data
  match parseHexNat (pySlice s 0 2), parseHexNat (pySlice s 2 4),
      parseHexNat (pySlice s 4 6) with
  | some r, some g, some b => some ((r : ℤ), (g : ℤ), (b : ℤ))
  | _, _, _ => none

/-! ### Palette loading (`load_yarn_palette`, vectorised variant) -/

/-- Outcome of `open(yaml_file)` followed by `yaml.safe_load`: the file may be
missing, the text may fail to parse, or parsing yields a top-level mapping
(modelled as an association list, preserving the document order that Python
dicts keep).  Values under each top-level key form a name-to-hex mapping. -/
inductive PaletteResource
  | missing
  | malformed
  | parsed (doc : List (String × List (String × String)))

/-- Python `name.lower()` (character-wise lowercasing; the palette names are
plain ASCII). -/
def pyLower (s : String) : String := ⟨s.data.map Char.toLower⟩

/-- Association-list lookup, as Python `data["colours"]` (first binding wins). -/
def alistLookup (key : String) : List (String × List (String × String)) →
    Option (List (String × String))
  | [] => none
  | (k, v) :: rest => if k = key then some v else alistLookup key rest

/-- Embedding of `load_yarn_palette` (vectorised module): open the file, parse
the YAML, read `data["colours"]`, and lowercase the names.  A missing file
raises `FileNotFoundError`, an unparsable file a YAML error, a document
without the `colours` key a `KeyError`.  The hex values are returned exactly
as found: the function performs no validation of them whatsoever. -/
def load_yarn_palette : PaletteResource → Except Err (List (String × String))
  | .missing => .error .fileNotFoundError
  | .malformed => .error .yamlError
  | .parsed doc =>
    match alistLookup "colours" doc with
    | none => .error .keyError
    | some m => .ok (m.map fun p => (pyLower p.1, p.2))

/-! ### Resampler (`resize_image`) -/

/-- Embedding of `resize_image`:

```
old_rows, old_cols, _ = img_array.shape
row_idx = (np.arange(new_rows) * (old_rows / new_rows)).astype(int)
col_idx = (np.arange(new_cols) * (old_cols / new_cols)).astype(int)
resized = img_array[row_idx[:, None], col_idx]
```

`old_rows / new_rows` is modelled as exact division in `ℚ`; `.astype(int)`
truncates toward zero, which on these non-negative values is `Nat.floor`.
When a target extent is zero the Python division raises `ZeroDivisionError`
(the division is evaluated even though `np.arange(0)` is empty). -/
def resize_image (img : Image) (newRows newCols : ℕ) : Except Err Image :=
  let oldRows := imgRows img
  let oldCols := imgCols img
  if newRows = 0 ∨ newCols = 0 then .error .zeroDivisionError
  else
    .ok ((List.range newRows).map fun (i : ℕ) =>
      (List.range newCols).map fun (j : ℕ) =>
        pixel img ⌊(i : ℚ) * ((oldRows : ℚ) / (newRows : ℚ))⌋₊
          ⌊(j : ℚ) * ((oldCols : ℚ) / (newCols : ℚ))⌋₊)

/-- Derived row count of the callers (`app.py` and the CLI main):
`rows = int(cols * aspect_ratio)` with `aspect_ratio = H / W`. -/
def derivedRows (cols H W : ℕ) : ℕ := ⌊(cols : ℚ) * ((H : ℚ) / (W : ℚ))⌋₊

/-! ### Edge Detector (`compute_edges`) -/

/-- Luma weighting `0.299 * R + 0.587 * G + 0.114 * B`, shared verbatim by
`compute_edges` (grayscale conversion) and
`edge_brightness_to_stitch_vectorised` (brightness). -/
def brightnessOf (p : RGB) : ℚ :=
  (299 / 1000) * (p.1 : ℚ) + (587 / 1000) * (p.2.1 : ℚ) + (114 / 1000) * (p.2.2 : ℚ)

/-- Grayscale value of cell `(r, c)`:
`gray = 0.299 * img[:,:,0] + 0.587 * img[:,:,1] + 0.114 * img[:,:,2]`. -/
def grayAt (img : Image) (r c : ℕ) : ℚ := brightnessOf (pixel img r c)

/-- Cell `(i, j)` of `np.pad(gray, ((1,1),(1,1)), mode='edge')`: index into
`gray` with both coordinates shifted by one and clamped to the valid range
(truncated `ℕ` subtraction performs the low clamp, `min` the high clamp). -/
def paddedGray (img : Image) (i j : ℕ) : ℚ :=
  grayAt img (min (i - 1) (imgRows img - 1)) (min (j - 1) (imgCols img - 1))

/-- Value of `gx` at cell `(r, c)`: the unrolled nine-term sum of the code, with the
coefficients of `Kx = [[-1,0,1],[-2,0,2],[-1,0,1]]`; the slice
`gray_padded[:-2,:-2]` contributes `paddedGray r c`, `gray_padded[:-2,1:-1]`
contributes `paddedGray r (c+1)`, and so on. -/
def gxAt (img : Image) (r c : ℕ) : ℚ :=
  (-1) * paddedGray img r c + 0 * paddedGray img r (c + 1) +
    1 * paddedGray img r (c + 2) +
  (-2) * paddedGray img (r + 1) c + 0 * paddedGray img (r + 1) (c + 1) +
    2 * paddedGray img (r + 1) (c + 2) +
  (-1) * paddedGray img (r + 2) c + 0 * paddedGray img (r + 2) (c + 1) +
    1 * paddedGray img (r + 2) (c + 2)

/-- Value of `gy` at cell `(r, c)`: the unrolled nine-term sum with the coefficients of
`Ky = [[1,2,1],[0,0,0],[-1,-2,-1]]`. -/
def gyAt (img : Image) (r c : ℕ) : ℚ :=
  1 * paddedGray img r c + 2 * paddedGray img r (c + 1) +
    1 * paddedGray img r (c + 2) +
  0 * paddedGray img (r + 1) c + 0 * paddedGray img (r + 1) (c + 1) +
    0 * paddedGray img (r + 1) (c + 2) +
  (-1) * paddedGray img (r + 2) c + (-2) * paddedGray img (r + 2) (c + 1) +
    (-1) * paddedGray img (r + 2) (c + 2)

/-- Embedding of `compute_edges`: returns `np.sqrt(gx ** 2 + gy ** 2)`, an
array of the same `R×C` shape as the input image. -/
noncomputable def compute_edges (img : Image) : List (List ℝ) :=
  (List.range (imgRows img)).map fun (r : ℕ) =>
    (List.range (imgCols img)).map fun (c : ℕ) =>
      Real.sqrt (((gxAt img r c : ℚ) : ℝ) ^ 2 + ((gyAt img r c : ℚ) : ℝ) ^ 2)

/-- The horizontal kernel, exactly as the spec writes it. -/
def Kx : List (List ℚ) := [[-1, 0, 1], [-2, 0, 2], [-1, 0, 1]]

/-- The vertical kernel, exactly as the spec writes it. -/
def Ky : List (List ℚ) := [[1, 2, 1], [0, 0, 0], [-1, -2, -1]]

/-- Modelled from the spec: "convolving with the fixed kernels" — the 3×3
sliding-window product-sum of a kernel against the replicate-padded grayscale
map (correlation orientation, the standard reading for these gradient
kernels; both kernels are antisymmetric under a 180° flip, so the magnitude
in the claim is unchanged by the other orientation). -/
def convAt (K : List (List ℚ)) (img : Image) (r c : ℕ) : ℚ :=
  ∑ a ∈ Finset.range 3, ∑ b ∈ Finset.range 3,
    ((K.getD a []).getD b 0) * paddedGray img (r + a) (c + b)

/-! ### Stitch Classifier (`edge_brightness_to_stitch_vectorised`) -/

/-- Per-cell core of `edge_brightness_to_stitch_vectorised`.  The code fills
the array with `'o'`, then overwrites cells with `brightness < 100` by `'+'`,
then overwrites cells with `edge > 150` by `'x'`; per cell that is this
sequence of writes, the last applicable one winning. -/
def stitchCell (p : RGB) (e : ℚ) : Char :=
  let s0 := 'o'
  let s1 := if brightnessOf p < 100 then '+' else s0
  let s2 := if e > 150 then 'x' else s1
  s2

/-- Embedding of `edge_brightness_to_stitch_vectorised` (array level). -/
def edge_brightness_to_stitch_vectorised (img : Image) (edges : List (List ℚ)) :
    List (List Char) :=
  (List.range (imgRows img)).map fun (r : ℕ) =>
    (List.range (imgCols img)).map fun (c : ℕ) =>
      stitchCell (pixel img r c) ((edges.getD r []).getD c 0)

/-! ### Color Classifier, vectorised (`nearest_colour_vectorised`) -/

/-- Squared Euclidean distance between two RGB triples:
`np.sum((flat_img[:,None,:] - palette_rgb[None,:,:]) ** 2, axis=2)`. -/
def sqDist (p q : RGB) : ℤ :=
  (p.1 - q.1) ^ 2 + (p.2.1 - q.2.1) ^ 2 + (p.2.2 - q.2.2) ^ 2

/-- Minimum of an integer list (`none` on the empty list). -/
def listMin : List ℤ → Option ℤ
  | [] => none
  | x :: xs =>
    some (match listMin xs with
      | none => x
      | some m => min x m)

/-- Semantics of `np.argmin` on a non-empty 1-D array: the index of the first
occurrence of the minimum.  (`np.argmin` raises on an empty input; callers of
this function only reach it with non-empty lists.) -/
def argminIdx : List ℤ → ℕ
  | [] => 0
  | x :: xs =>
    match listMin xs with
    | none => 0
    | some m => if m < x then argminIdx xs + 1 else 0

/-- Hex parsing step of `nearest_colour_vectorised`.  The palette is the
ordered name-to-hex association produced by `load_yarn_palette` (Python dicts
keep insertion order).  With an empty palette the broadcast
`palette_rgb[None,:,:]` on the 1-D empty array raises `IndexError`; otherwise
every cell of the result is `palette_names[np.argmin(dist[cell])]`, arranged
over the image shape (`reshape(-1, 3)` then `reshape(img_array.shape[:2])`
traverse row-major, so the flat computation is per-cell). -/
def parsePalette : List (String × String) → Option (List RGB)
  | [] => some []
  | p :: rest =>
    match hexToRGB p.2, parsePalette rest with
    | some q, some qs => some (q :: qs)
    | _, _ => none

/-- Embedding of `nearest_colour_vectorised`; `parsePalette` above is its hex
parsing comprehension
`[[int(hex_code.lstrip('#')[i:i+2],16) for i in (0,2,4)] for hex_code in yarn_palette.values()]`,
which raises `ValueError` at the first unparsable slice. -/
def nearest_colour_vectorised (img : Image) (palette : List (String × String)) :
    Except Err (List (List String)) :=
  let paletteNames := palette.map Prod.fst
  match parsePalette palette with
  | none => .error .valueError
  | some paletteRGB =>
    match paletteRGB with
    | [] => .error .indexError
    | _ :: _ =>
      .ok ((List.range (imgRows img)).map fun (r : ℕ) =>
        (List.range (imgCols img)).map fun (c : ℕ) =>
          paletteNames.getD
            (argminIdx (paletteRGB.map fun q => sqDist (pixel img r c) q)) "")

/-! ### Color Classifier, per-pixel variant (`nearest_colour`, `main.py`) -/

/-- Loop body of `nearest_colour`: `min_dist` starts at `float("inf")`
(modelled as `none`), `closest` starts at `None`; each entry's hex is parsed
(raising `ValueError` if unparsable) and the entry becomes the new closest
exactly when its distance is strictly below the current minimum. -/
def nearestLoop (rgb : RGB) : List (String × String) → Option ℤ → Option String →
    Except Err (Option String)
  | [], _, closest => .ok closest
  | p :: rest, minDist, closest =>
    match hexToRGB p.2 with
    | none => .error .valueError
    | some q =>
      let d := sqDist rgb q
      if ∀ m ∈ minDist, d < m then nearestLoop rgb rest (some d) (some p.1)
      else nearestLoop rgb rest minDist closest

/-- Embedding of `main.py`'s `nearest_colour`: returns the final `closest`,
which is `None` exactly when the loop never ran (empty palette). -/
def nearest_colour (rgb : RGB) (palette : List (String × String)) :
    Except Err (Option String) :=
  nearestLoop rgb palette none none

/-! ### Grid Assembler (`image_to_stitch_grid`) -/

/-- Embedding of `image_to_stitch_grid`: compute the colour array (errors
propagate) and the stitch array, then enumerate
`[(r, c, stitch_array[r,c], colour_array[r,c]) for r in range(rows) for c in
range(cols)]`; the Polars `DataFrame` keeps exactly this row order, so the
grid is modelled as that list. -/
def image_to_stitch_grid (img : Image) (edges : List (List ℚ))
    (palette : List (String × String)) : Except Err (List (ℕ × ℕ × Char × String)) :=
  match nearest_colour_vectorised img palette with
  | .error e => .error e
  | .ok colourArr =>
    let stitchArr := edge_brightness_to_stitch_vectorised img edges
    (List.range (imgRows img)).flatMap (fun (r : ℕ) =>
      (List.range (imgCols img)).map fun (c : ℕ) =>
        (r, c, (stitchArr.getD r []).getD c 'o', (colourArr.getD r []).getD c "")) |> .ok

/-!
## General lemmas and sanity checks
-/

/-- Truncating `i * (old / new)` under exact arithmetic is floored natural
division `i * old / new` (also at `new = 0`, where `ℚ` division by zero gives
`0` on both sides — though the code errors out before reaching that case). -/
theorem truncIdx_eq (i old new : ℕ) :
    ⌊(i : ℚ) * ((old : ℚ) / (new : ℚ))⌋₊ = i * old / new := by
  rw [show (i : ℚ) * ((old : ℚ) / (new : ℚ)) = ((i * old : ℕ) : ℚ) / ((new : ℕ) : ℚ) by
    push_cast; ring]
  rw [Nat.floor_div_nat]
  simp [← Nat.cast_mul, Nat.floor_natCast]

example : resize_image [[(1,2,3), (4,5,6)], [(7,8,9), (10,11,12)]] 1 1 =
    .ok [[(1,2,3)]] := by simp only [resize_image, imgRows, imgCols, truncIdx_eq]; decide

example : resize_image [[(1,2,3)]] 0 5 = .error .zeroDivisionError := by decide

example : hexToRGB "#12345" = some (18, 52, 5) := by decide

example : hexToRGB "#1234" = none := by decide

example : hexToRGB "#a0B1c2" = some (160, 177, 194) := by decide

example : nearest_colour (1, 2, 3) [] = .ok none := by decide

example : nearest_colour (200, 0, 0) [("black", "#000000"), ("red", "#ff0000")] =
    .ok (some "red") := by decide

example : nearest_colour_vectorised [[(0, 0, 0)]] [] = .error .indexError := by decide

example :
    nearest_colour_vectorised [[(10, 10, 10), (250, 0, 0)]]
      [("black", "#000000"), ("red", "#ff0000")] = .ok [["black", "red"]] := by decide

/-- The strict brightness comparison, cleared of denominators: over exact
arithmetic, `0.299*R + 0.587*G + 0.114*B < t/10` iff
`299*R + 587*G + 114*B < 100*t` in `ℤ`.  (Instantiating `t := 1000` gives the
threshold `100` of the stitch classifier.) -/
theorem brightnessOf_lt_iff (p : RGB) (t : ℤ) :
    brightnessOf p < (t : ℚ) / 10 ↔ 299 * p.1 + 587 * p.2.1 + 114 * p.2.2 < 100 * t := by
  constructor
  · intro h
    have h2 : (299 : ℚ) * p.1 + 587 * p.2.1 + 114 * p.2.2 < 100 * t := by
      unfold brightnessOf at h; linarith
    exact_mod_cast h2
  · intro h
    have h2 : ((299 * p.1 + 587 * p.2.1 + 114 * p.2.2 : ℤ) : ℚ) < ((100 * t : ℤ) : ℚ) := by
      exact_mod_cast h
    push_cast at h2
    unfold brightnessOf
    linarith

example : stitchCell (0, 0, 0) 0 = '+' := by norm_num [stitchCell, brightnessOf]

example : stitchCell (0, 0, 0) 151 = 'x' := by norm_num [stitchCell, brightnessOf]

example : stitchCell (100, 100, 100) 150 = 'o' := by norm_num [stitchCell, brightnessOf]

/-- Reading index `i < n` of `(List.range n).map f` gives `f i`. -/
theorem getD_map_range {α : Type} (f : ℕ → α) (n i : ℕ) (d : α) (h : i < n) :
    ((List.range n).map f).getD i d = f i := by
  rw [List.getD_eq_getElem _ _ (by simpa using h)]
  simp

/-- Reading an in-bounds index of `l.map f` gives `f` of the element there. -/
theorem getD_map_of_lt {α β : Type} (f : α → β) (l : List α) (i : ℕ) (d : β) (e : α)
    (h : i < l.length) : (l.map f).getD i d = f (l.getD i e) := by
  rw [List.getD_eq_getElem _ _ (by simpa using h), List.getD_eq_getElem _ _ h]
  simp

/-- Mapping `f` of the `getD` reads over the index range of a list rebuilds
`l.map f`. -/
theorem map_range_getD {α β : Type} (f : α → β) (d : α) :
    ∀ l : List α, (List.range l.length).map (fun i => f (l.getD i d)) = l.map f := by
  intro l
  induction l with
  | nil => simp
  | cons x xs ih =>
    rw [List.length_cons, List.range_succ_eq_map, List.map_cons, List.map_map]
    have hcomp : ∀ i ∈ List.range xs.length,
        ((fun i => f ((x :: xs).getD i d)) ∘ Nat.succ) i = f (xs.getD i d) := by
      intro i _
      simp [Function.comp, List.getD_cons_succ]
    rw [List.map_congr_left hcomp, ih]
    simp

/-- Only the empty list has no minimum. -/
theorem listMin_none : ∀ {l : List ℤ}, listMin l = none → l = [] := by
  intro l h
  cases l with
  | nil => rfl
  | cons x xs => simp [listMin] at h

/-- The value `listMin` returns is a member of the list and a lower bound. -/
theorem listMin_spec : ∀ (l : List ℤ) (m : ℤ), listMin l = some m →
    m ∈ l ∧ ∀ y ∈ l, m ≤ y := by
  intro l
  induction l with
  | nil => intro m h; simp [listMin] at h
  | cons x xs ih =>
    intro m h
    cases hxs : listMin xs with
    | none =>
      have hnil : xs = [] := listMin_none hxs
      subst hnil
      simp only [listMin, Option.some.injEq] at h
      subst h
      simp
    | some mx =>
      simp only [listMin, hxs, Option.some.injEq] at h
      subst h
      obtain ⟨hmem, hle⟩ := ih mx hxs
      constructor
      · rcases le_total x mx with hx | hx
        · rw [min_eq_left hx]; exact List.mem_cons_self _ _
        · rw [min_eq_right hx]; exact List.mem_cons_of_mem _ hmem
      · intro y hy
        rcases List.mem_cons.mp hy with rfl | hy2
        · exact min_le_left _ _
        · exact le_trans (min_le_right _ _) (hle y hy2)

/-- Characterisation of `argminIdx` on a non-empty list: it is an in-bounds
index, the value there is minimal, and every strictly earlier index holds a
strictly larger value (first-occurrence tie-break of `np.argmin`). -/
theorem argminIdx_spec : ∀ (l : List ℤ), l ≠ [] →
    argminIdx l < l.length ∧
    (∀ j < l.length, l.getD (argminIdx l) 0 ≤ l.getD j 0) ∧
    (∀ j < argminIdx l, l.getD (argminIdx l) 0 < l.getD j 0) := by
  intro l
  induction l with
  | nil => intro h; exact absurd rfl h
  | cons x xs ih =>
    intro _
    cases hxs : listMin xs with
    | none =>
      have hnil : xs = [] := listMin_none hxs
      subst hnil
      refine ⟨by simp [argminIdx, listMin], ?_, ?_⟩
      · intro j hj
        have hj0 : j = 0 := Nat.lt_one_iff.mp (by simpa using hj)
        subst hj0
        simp [argminIdx, listMin]
      · intro j hj
        simp [argminIdx, listMin] at hj
    | some m =>
      have hxsne : xs ≠ [] := by
        intro hc
        subst hc
        simp [listMin] at hxs
      obtain ⟨hlt, hmin, hstrict⟩ := ih hxsne
      obtain ⟨hmem, hlb⟩ := listMin_spec xs m hxs
      obtain ⟨j0, hj0, hj0eq⟩ := List.mem_iff_getElem.mp hmem
      have hargle : xs.getD (argminIdx xs) 0 ≤ m := by
        have h1 := hmin j0 hj0
        rw [List.getD_eq_getElem _ _ hj0] at h1
        rw [hj0eq] at h1
        exact h1
      by_cases hmx : m < x
      · simp only [argminIdx, hxs, if_pos hmx]
        refine ⟨by simpa using Nat.succ_lt_succ hlt, ?_, ?_⟩
        · intro j hj
          cases j with
          | zero =>
            rw [List.getD_cons_succ, List.getD_cons_zero]
            exact le_trans hargle (le_of_lt hmx)
          | succ j2 =>
            rw [List.getD_cons_succ, List.getD_cons_succ]
            exact hmin j2 (by simpa using hj)
        · intro j hj
          cases j with
          | zero =>
            rw [List.getD_cons_succ, List.getD_cons_zero]
            exact lt_of_le_of_lt hargle hmx
          | succ j2 =>
            rw [List.getD_cons_succ, List.getD_cons_succ]
            exact hstrict j2 (by omega)
      · simp only [argminIdx, hxs, if_neg hmx]
        refine ⟨by simp, ?_, ?_⟩
        · intro j hj
          cases j with
          | zero => simp
          | succ j2 =>
            rw [List.getD_cons_zero, List.getD_cons_succ]
            have hj2 : j2 < xs.length := by simpa using hj
            have hmem2 : xs.getD j2 0 ∈ xs := by
              rw [List.getD_eq_getElem _ _ hj2]
              exact List.getElem_mem _
            exact le_trans (not_lt.mp hmx) (hlb _ hmem2)
        · intro j hj
          omega

/-- A successful palette parse returns one RGB triple per palette entry. -/
theorem parsePalette_some_length :
    ∀ (l : List (String × String)) (r : List RGB),
      parsePalette l = some r → r.length = l.length := by
  intro l
  induction l with
  | nil =>
    intro r h
    simp only [parsePalette, Option.some.injEq] at h
    simp [← h]
  | cons x xs ih =>
    intro r h
    simp only [parsePalette] at h
    cases hx : hexToRGB x.2 with
    | none => rw [hx] at h; cases h
    | some b =>
      cases hxs : parsePalette xs with
      | none => rw [hx, hxs] at h; cases h
      | some bs =>
        rw [hx, hxs] at h
        simp only [Option.some.injEq] at h
        subst h
        simp [ih bs hxs]

/-- Shared characterisation of `nearest_colour_vectorised` on a parsable,
non-empty palette: it succeeds, the grid has the image's shape, and each cell
holds the name of the first palette entry of minimum squared distance. -/
theorem nearest_vectorised_spec (img : Image) (palette : List (String × String))
    (rgbs : List RGB) (hp : parsePalette palette = some rgbs) (hne : rgbs ≠ []) :
    ∃ grid, nearest_colour_vectorised img palette = .ok grid ∧
      grid.length = imgRows img ∧
      (∀ row ∈ grid, row.length = imgCols img) ∧
      ∀ r, r < imgRows img → ∀ c, c < imgCols img → ∃ k,
        k < palette.length ∧
        (grid.getD r []).getD c "" = (palette.getD k ("", "")).1 ∧
        (∀ j < palette.length,
          sqDist (pixel img r c) (rgbs.getD k (0, 0, 0)) ≤
            sqDist (pixel img r c) (rgbs.getD j (0, 0, 0))) ∧
        (∀ j < k,
          sqDist (pixel img r c) (rgbs.getD k (0, 0, 0)) <
            sqDist (pixel img r c) (rgbs.getD j (0, 0, 0))) := by
  obtain ⟨y, ys, rfl⟩ : ∃ y ys, rgbs = y :: ys := by
    cases rgbs with
    | nil => exact absurd rfl hne
    | cons y ys => exact ⟨y, ys, rfl⟩
  have hplen : (y :: ys).length = palette.length := parsePalette_some_length _ _ hp
  refine ⟨(List.range (imgRows img)).map fun (r : ℕ) =>
      (List.range (imgCols img)).map fun (c : ℕ) =>
        (palette.map Prod.fst).getD
          (argminIdx ((y :: ys).map fun q => sqDist (pixel img r c) q)) "",
    ?_, by simp, ?_, ?_⟩
  · simp only [nearest_colour_vectorised, hp]
  · intro row hrow
    obtain ⟨i, hi, rfl⟩ := List.mem_map.mp hrow
    simp
  · intro r hr c hc
    have hcell : ((((List.range (imgRows img)).map fun (r : ℕ) =>
        (List.range (imgCols img)).map fun (c : ℕ) =>
          (palette.map Prod.fst).getD
            (argminIdx ((y :: ys).map fun q => sqDist (pixel img r c) q)) "").getD r
          []).getD c "") =
        (palette.map Prod.fst).getD
          (argminIdx ((y :: ys).map fun q => sqDist (pixel img r c) q)) "" := by
      rw [getD_map_range _ _ _ _ hr, getD_map_range _ _ _ _ hc]
    have hdne : ((y :: ys).map fun q => sqDist (pixel img r c) q) ≠ [] := by simp
    obtain ⟨hk, hmin, hstrict⟩ :=
      argminIdx_spec ((y :: ys).map fun q => sqDist (pixel img r c) q) hdne
    rw [List.length_map] at hk
    have hdist : ∀ j, j < (y :: ys).length →
        ((y :: ys).map fun q => sqDist (pixel img r c) q).getD j 0 =
          sqDist (pixel img r c) ((y :: ys).getD j (0, 0, 0)) := by
      intro j hj
      exact getD_map_of_lt _ _ _ _ _ hj
    refine ⟨argminIdx ((y :: ys).map fun q => sqDist (pixel img r c) q),
      by omega, ?_, ?_, ?_⟩
    · rw [hcell]
      exact getD_map_of_lt _ _ _ _ ("", "") (by omega)
    · intro j hj
      have h1 := hmin j (by simpa using (by omega : j < (y :: ys).length))
      rw [hdist _ hk, hdist _ (by omega)] at h1
      exact h1
    · intro j hj
      have h1 := hstrict j hj
      rw [hdist _ hk, hdist _ (by omega)] at h1
      exact h1

/-- Shared characterisation of `resize_image` on positive target extents: it
succeeds, the result has `newRows` rows of `newCols` pixels each, and cell
`(i, j)` selects the source pixel at `(⌊i*H/R⌋, ⌊j*W/C⌋)` (written with
natural division, which `truncIdx_eq` identifies with the code's truncated
product). -/
theorem resize_spec (img : Image) (R C : ℕ) (hR : 1 ≤ R) (hC : 1 ≤ C) :
    ∃ grid, resize_image img R C = .ok grid ∧
      grid.length = R ∧ (∀ row ∈ grid, row.length = C) ∧
      ∀ i, i < R → ∀ j, j < C →
        (grid.getD i []).getD j (0, 0, 0) =
          pixel img (i * imgRows img / R) (j * imgCols img / C) := by
  refine ⟨(List.range R).map fun (i : ℕ) => (List.range C).map fun (j : ℕ) =>
      pixel img (i * imgRows img / R) (j * imgCols img / C), ?_, by simp, ?_, ?_⟩
  · simp only [resize_image, truncIdx_eq]
    rw [if_neg (by omega)]
  · intro row hrow
    obtain ⟨i, hi, rfl⟩ := List.mem_map.mp hrow
    simp
  · intro i hi j hj
    rw [getD_map_range _ _ _ _ hi, getD_map_range _ _ _ _ hj]

/-!
## Claim theorems
-/

/-- C4: For every H×W×3 source image and every target rows R ≥ 1 and cols
C ≥ 1, the Resampler selects, for each target row `i < R`, the source row
`⌊i * H / R⌋`, and symmetrically for columns (natural division is the floor
of the exact quotient). -/
theorem resampler_floor_selection (img : Image) (R C : ℕ) (hR : 1 ≤ R) (hC : 1 ≤ C) :
    ∃ grid, resize_image img R C = .ok grid ∧
      ∀ i, i < R → ∀ j, j < C →
        (grid.getD i []).getD j (0, 0, 0) =
          pixel img (i * imgRows img / R) (j * imgCols img / C) := by
  obtain ⟨grid, hok, _, _, hsel⟩ := resize_spec img R C hR hC
  exact ⟨grid, hok, hsel⟩

/-- Witness for C4 on a concrete 2×2 image resized to 1×2. -/
theorem resampler_floor_selection_witness :
    (1 : ℕ) ≤ 1 ∧ (1 : ℕ) ≤ 2 ∧
    ∃ grid, resize_image [[(1,2,3), (4,5,6)], [(7,8,9), (10,11,12)]] 1 2 = .ok grid ∧
      ∀ i, i < 1 → ∀ j, j < 2 →
        (grid.getD i []).getD j (0, 0, 0) =
          pixel [[(1,2,3), (4,5,6)], [(7,8,9), (10,11,12)]]
            (i * imgRows [[(1,2,3), (4,5,6)], [(7,8,9), (10,11,12)]] / 1)
            (j * imgCols [[(1,2,3), (4,5,6)], [(7,8,9), (10,11,12)]] / 2) :=
  ⟨by decide, by decide,
    resampler_floor_selection [[(1,2,3), (4,5,6)], [(7,8,9), (10,11,12)]] 1 2
      (by decide) (by decide)⟩

/-- C5: For every source image with H,W ≥ 1 and every target R,C ≥ 1, the
Resampler's output has exactly R rows of C pixels (each pixel being an RGB
triple, hence shape R×C×3) and every output pixel equals some pixel of the
input image — pure selection, no blending. -/
theorem resampler_shape_pure_selection (img : Image) (R C : ℕ)
    (hH : 1 ≤ imgRows img) (hW : 1 ≤ imgCols img) (hR : 1 ≤ R) (hC : 1 ≤ C) :
    ∃ grid, resize_image img R C = .ok grid ∧
      grid.length = R ∧ (∀ row ∈ grid, row.length = C) ∧
      ∀ i, i < R → ∀ j, j < C → ∃ r, r < imgRows img ∧ ∃ c, c < imgCols img ∧
        (grid.getD i []).getD j (0, 0, 0) = pixel img r c := by
  obtain ⟨grid, hok, hlen, hrows, hsel⟩ := resize_spec img R C hR hC
  refine ⟨grid, hok, hlen, hrows, ?_⟩
  intro i hi j hj
  refine ⟨i * imgRows img / R, ?_, j * imgCols img / C, ?_, hsel i hi j hj⟩
  · exact Nat.div_lt_of_lt_mul (Nat.mul_lt_mul_of_lt_of_le hi (le_refl _) hH)
  · exact Nat.div_lt_of_lt_mul (Nat.mul_lt_mul_of_lt_of_le hj (le_refl _) hW)

/-- Witness for C5 on a concrete 1×1 image resized to 2×3. -/
theorem resampler_shape_pure_selection_witness :
    (1 : ℕ) ≤ imgRows [[((9 : ℤ), (8 : ℤ), (7 : ℤ))]] ∧
    (1 : ℕ) ≤ imgCols [[((9 : ℤ), (8 : ℤ), (7 : ℤ))]] ∧
    (1 : ℕ) ≤ 2 ∧ (1 : ℕ) ≤ 3 ∧
    ∃ grid, resize_image [[((9 : ℤ), (8 : ℤ), (7 : ℤ))]] 2 3 = .ok grid ∧
      grid.length = 2 ∧ (∀ row ∈ grid, row.length = 3) ∧
      ∀ i, i < 2 → ∀ j, j < 3 →
        ∃ r, r < imgRows [[((9 : ℤ), (8 : ℤ), (7 : ℤ))]] ∧
          ∃ c, c < imgCols [[((9 : ℤ), (8 : ℤ), (7 : ℤ))]] ∧
            (grid.getD i []).getD j (0, 0, 0) =
              pixel [[((9 : ℤ), (8 : ℤ), (7 : ℤ))]] r c :=
  ⟨by decide, by decide, by decide, by decide,
    resampler_shape_pure_selection [[((9 : ℤ), (8 : ℤ), (7 : ℤ))]] 2 3
      (by decide) (by decide) (by decide) (by decide)⟩

/-- C10: For every rectangular H×W image with H,W ≥ 1, resampling it to its
own dimensions returns the input image unchanged: the selected index
`⌊i * H / H⌋` is `i` itself, so the nested selection rebuilds every row. -/
theorem resampler_identity (img : Image) (hWF : WFImage img)
    (hH : 1 ≤ imgRows img) (hW : 1 ≤ imgCols img) :
    resize_image img (imgRows img) (imgCols img) = .ok img := by
  simp only [resize_image, truncIdx_eq]
  rw [if_neg (by omega)]
  have h1 : ∀ i : ℕ, i * imgRows img / imgRows img = i :=
    fun i => Nat.mul_div_cancel i hH
  have h2 : ∀ j : ℕ, j * imgCols img / imgCols img = j :=
    fun j => Nat.mul_div_cancel j hW
  simp only [h1, h2]
  congr 1
  have hinner : ∀ i ∈ List.range (imgRows img),
      (List.range (imgCols img)).map (fun (j : ℕ) => pixel img i j) = img.getD i [] := by
    intro i hi
    have hi2 : i < img.length := by simpa [imgRows] using List.mem_range.mp hi
    have hrow : img.getD i [] ∈ img := by
      rw [List.getD_eq_getElem _ _ hi2]
      exact List.getElem_mem _
    have hrl : (img.getD i []).length = imgCols img := hWF _ hrow
    calc (List.range (imgCols img)).map (fun (j : ℕ) => pixel img i j)
        = (List.range (img.getD i []).length).map
            (fun j => (fun x => x) ((img.getD i []).getD j (0, 0, 0))) := by
          rw [hrl]; rfl
      _ = (img.getD i []).map (fun x => x) := map_range_getD (fun x => x) (0, 0, 0) _
      _ = img.getD i [] := List.map_id' _
  rw [List.map_congr_left hinner]
  calc (List.range (imgRows img)).map (fun i => img.getD i [])
      = (List.range img.length).map (fun i => (fun x => x) (img.getD i [])) := rfl
    _ = img.map (fun x => x) := map_range_getD (fun x => x) [] img
    _ = img := List.map_id' _

/-- Witness for C10 on a concrete rectangular 2×2 image. -/
theorem resampler_identity_witness :
    WFImage [[(1,2,3), (4,5,6)], [(7,8,9), (10,11,12)]] ∧
    (1 : ℕ) ≤ imgRows [[(1,2,3), (4,5,6)], [(7,8,9), (10,11,12)]] ∧
    (1 : ℕ) ≤ imgCols [[(1,2,3), (4,5,6)], [(7,8,9), (10,11,12)]] ∧
    resize_image [[(1,2,3), (4,5,6)], [(7,8,9), (10,11,12)]]
        (imgRows [[(1,2,3), (4,5,6)], [(7,8,9), (10,11,12)]])
        (imgCols [[(1,2,3), (4,5,6)], [(7,8,9), (10,11,12)]]) =
      .ok [[(1,2,3), (4,5,6)], [(7,8,9), (10,11,12)]] :=
  ⟨by decide, by decide, by decide,
    resampler_identity [[(1,2,3), (4,5,6)], [(7,8,9), (10,11,12)]]
      (by decide) (by decide) (by decide)⟩

/-- C7 counterexample: the claim says a zero target extent is rejected with
an `InvalidDimension` error.  In the code there is no such guard: the row
count derived for a 1×100 image at 5 columns rounds down to zero, and the
Resampler then fails with an (unhandled) `ZeroDivisionError` from
`old_rows / new_rows` — a different error kind than the claim names. -/
theorem resampler_zero_dim_counterexample :
    derivedRows 5 1 100 = 0 ∧
    resize_image [List.replicate 100 ((0 : ℤ), (0 : ℤ), (0 : ℤ))] 0 5 =
      .error .zeroDivisionError ∧
    Err.zeroDivisionError ≠ Err.invalidDimension := by
  refine ⟨?_, by decide, by decide⟩
  rw [derivedRows, truncIdx_eq]

/-- C7 amended: every call of the Resampler with target rows 0 or target cols
0 (including a derived row count that rounds to 0) fails with a
`ZeroDivisionError` rather than producing an output; there is no
`InvalidDimension` guard anywhere in the code. -/
theorem resampler_zero_dim_amended (img : Image) (R C : ℕ) (h : R = 0 ∨ C = 0) :
    resize_image img R C = .error .zeroDivisionError := by
  simp only [resize_image]
  rw [if_pos h]

/-- Witness for the amended C7 at a concrete call. -/
theorem resampler_zero_dim_amended_witness :
    ((0 : ℕ) = 0 ∨ (5 : ℕ) = 0) ∧
    resize_image [[(1, 2, 3)]] 0 5 = .error .zeroDivisionError :=
  ⟨Or.inl rfl, resampler_zero_dim_amended [[(1, 2, 3)]] 0 5 (Or.inl rfl)⟩

/-- C2: For every pixel of the image and every non-empty palette (given with
its parsed RGB triples), the Color Classifier succeeds and returns, at each
cell, the name of the palette entry whose RGB triple has minimum squared
Euclidean distance to the pixel, ties resolved to the first entry in palette
order (strictly earlier entries have strictly larger distance); in particular
every pixel maps to some palette entry. -/
theorem colour_classifier_argmin (img : Image) (palette : List (String × String))
    (rgbs : List RGB) (hp : parsePalette palette = some rgbs) (hne : rgbs ≠ [])
    (r c : ℕ) (hr : r < imgRows img) (hc : c < imgCols img) :
    ∃ grid, nearest_colour_vectorised img palette = .ok grid ∧
      ∃ k, k < palette.length ∧
        (grid.getD r []).getD c "" = (palette.getD k ("", "")).1 ∧
        (∀ j < palette.length,
          sqDist (pixel img r c) (rgbs.getD k (0, 0, 0)) ≤
            sqDist (pixel img r c) (rgbs.getD j (0, 0, 0))) ∧
        (∀ j < k,
          sqDist (pixel img r c) (rgbs.getD k (0, 0, 0)) <
            sqDist (pixel img r c) (rgbs.getD j (0, 0, 0))) := by
  obtain ⟨grid, hok, _, _, hcell⟩ := nearest_vectorised_spec img palette rgbs hp hne
  exact ⟨grid, hok, hcell r hr c hc⟩

/-- Witness for C2: a single dark pixel against a black/white palette. -/
theorem colour_classifier_argmin_witness :
    parsePalette [("black", "#000000"), ("white", "#ffffff")] =
      some [(0, 0, 0), (255, 255, 255)] ∧
    ([((0 : ℤ), (0 : ℤ), (0 : ℤ)), ((255 : ℤ), (255 : ℤ), (255 : ℤ))] ≠
      ([] : List RGB)) ∧
    (0 : ℕ) < imgRows [[((10 : ℤ), (10 : ℤ), (10 : ℤ))]] ∧
    (0 : ℕ) < imgCols [[((10 : ℤ), (10 : ℤ), (10 : ℤ))]] ∧
    ∃ grid, nearest_colour_vectorised [[((10 : ℤ), (10 : ℤ), (10 : ℤ))]]
        [("black", "#000000"), ("white", "#ffffff")] = .ok grid ∧
      ∃ k, k < [("black", "#000000"), ("white", "#ffffff")].length ∧
        (grid.getD 0 []).getD 0 "" =
          ([("black", "#000000"), ("white", "#ffffff")].getD k ("", "")).1 ∧
        (∀ j < [("black", "#000000"), ("white", "#ffffff")].length,
          sqDist (pixel [[((10 : ℤ), (10 : ℤ), (10 : ℤ))]] 0 0)
              ([((0 : ℤ), (0 : ℤ), (0 : ℤ)),
                ((255 : ℤ), (255 : ℤ), (255 : ℤ))].getD k (0, 0, 0)) ≤
            sqDist (pixel [[((10 : ℤ), (10 : ℤ), (10 : ℤ))]] 0 0)
              ([((0 : ℤ), (0 : ℤ), (0 : ℤ)),
                ((255 : ℤ), (255 : ℤ), (255 : ℤ))].getD j (0, 0, 0))) ∧
        (∀ j < k,
          sqDist (pixel [[((10 : ℤ), (10 : ℤ), (10 : ℤ))]] 0 0)
              ([((0 : ℤ), (0 : ℤ), (0 : ℤ)),
                ((255 : ℤ), (255 : ℤ), (255 : ℤ))].getD k (0, 0, 0)) <
            sqDist (pixel [[((10 : ℤ), (10 : ℤ), (10 : ℤ))]] 0 0)
              ([((0 : ℤ), (0 : ℤ), (0 : ℤ)),
                ((255 : ℤ), (255 : ℤ), (255 : ℤ))].getD j (0, 0, 0))) :=
  ⟨by decide, by decide, by decide, by decide,
    colour_classifier_argmin [[((10 : ℤ), (10 : ℤ), (10 : ℤ))]]
      [("black", "#000000"), ("white", "#ffffff")]
      [(0, 0, 0), (255, 255, 255)] (by decide) (by decide) 0 0
      (by decide) (by decide)⟩

/-- C8 counterexample: the claim says the Color Classifier raises a
`LookupMiss` error on an empty palette rather than silently returning a
missing colour name.  In the code, the per-pixel variant `nearest_colour`
silently returns `None` (its loop never runs and `closest` stays `None`),
and the vectorised variant fails with a generic numpy `IndexError`; no
`LookupMiss` error kind exists anywhere. -/
theorem colour_classifier_empty_counterexample :
    nearest_colour (0, 0, 0) [] = .ok none ∧
    nearest_colour (0, 0, 0) [] ≠ .error .lookupMiss ∧
    nearest_colour_vectorised [[(0, 0, 0)]] [] = .error .indexError ∧
    Err.indexError ≠ Err.lookupMiss :=
  ⟨by decide, by decide, by decide, by decide⟩

/-- C8 amended: with an empty palette the vectorised classifier fails with a
generic `IndexError` (not a `LookupMiss`, which does not exist in the code)
while the per-pixel variant silently returns `None`; with a non-empty,
parsable palette the vectorised classifier succeeds and maps every pixel to
the name of some palette entry. -/
theorem colour_classifier_empty_amended (img : Image) (rgb : RGB)
    (palette : List (String × String)) (rgbs : List RGB)
    (hp : parsePalette palette = some rgbs) (hne : rgbs ≠ []) :
    nearest_colour_vectorised img [] = .error .indexError ∧
    nearest_colour rgb [] = .ok none ∧
    ∃ grid, nearest_colour_vectorised img palette = .ok grid ∧
      ∀ r, r < imgRows img → ∀ c, c < imgCols img →
        ∃ k, k < palette.length ∧
          (grid.getD r []).getD c "" = (palette.getD k ("", "")).1 := by
  refine ⟨rfl, rfl, ?_⟩
  obtain ⟨grid, hok, _, _, hcell⟩ := nearest_vectorised_spec img palette rgbs hp hne
  refine ⟨grid, hok, ?_⟩
  intro r hr c hc
  obtain ⟨k, hk, hname, _, _⟩ := hcell r hr c hc
  exact ⟨k, hk, hname⟩

/-- Witness for the amended C8 at a concrete image and palette. -/
theorem colour_classifier_empty_amended_witness :
    parsePalette [("black", "#000000")] = some [(0, 0, 0)] ∧
    ([((0 : ℤ), (0 : ℤ), (0 : ℤ))] ≠ ([] : List RGB)) ∧
    (nearest_colour_vectorised [[((5 : ℤ), (5 : ℤ), (5 : ℤ))]] [] =
        .error .indexError ∧
      nearest_colour ((5 : ℤ), (5 : ℤ), (5 : ℤ)) [] = .ok none ∧
      ∃ grid, nearest_colour_vectorised [[((5 : ℤ), (5 : ℤ), (5 : ℤ))]]
          [("black", "#000000")] = .ok grid ∧
        ∀ r, r < imgRows [[((5 : ℤ), (5 : ℤ), (5 : ℤ))]] →
          ∀ c, c < imgCols [[((5 : ℤ), (5 : ℤ), (5 : ℤ))]] →
            ∃ k, k < [("black", "#000000")].length ∧
              (grid.getD r []).getD c "" =
                ([("black", "#000000")].getD k ("", "")).1) :=
  ⟨by decide, by decide,
    colour_classifier_empty_amended [[((5 : ℤ), (5 : ℤ), (5 : ℤ))]]
      ((5 : ℤ), (5 : ℤ), (5 : ℤ)) [("black", "#000000")] [(0, 0, 0)]
      (by decide) (by decide)⟩

/-- C6 counterexample: the claim says a palette resource containing a 5-digit
hex value fails with a `ConfigError` before any image processing.  In the
code, `load_yarn_palette` performs no hex validation at all — the load
succeeds — and even downstream, the slice-based hex parser accepts the
5-digit value (its third slice is the single digit `"5"`), so no error is
raised during image processing either. -/
theorem palette_loader_bad_hex_counterexample :
    load_yarn_palette (.parsed [("colours", [("Red", "#12345")])]) =
      .ok [("red", "#12345")] ∧
    hexToRGB "#12345" = some (18, 52, 5) ∧
    parsePalette [("red", "#12345")] = some [(18, 52, 5)] :=
  ⟨by decide, by decide, by decide⟩

/-- C6 amended: a missing resource fails with `FileNotFoundError`, an
unparsable one with a YAML parse error, and one lacking the top-level
`colours` mapping with `KeyError` (none of these is a dedicated
`ConfigError`); hex values are not validated: any resource with a `colours`
mapping loads successfully with names lowercased and hex strings returned
unchanged, a non-6-digit hex value included. -/
theorem palette_loader_amended (doc : List (String × List (String × String)))
    (m : List (String × String)) :
    load_yarn_palette .missing = .error .fileNotFoundError ∧
    load_yarn_palette .malformed = .error .yamlError ∧
    (alistLookup "colours" doc = none →
      load_yarn_palette (.parsed doc) = .error .keyError) ∧
    (alistLookup "colours" doc = some m →
      load_yarn_palette (.parsed doc) = .ok (m.map fun p => (pyLower p.1, p.2))) := by
  refine ⟨rfl, rfl, ?_, ?_⟩
  · intro h
    simp only [load_yarn_palette, h]
  · intro h
    simp only [load_yarn_palette, h]

/-- Witness for the amended C6 at a concrete resource (whose only hex value
has five digits). -/
theorem palette_loader_amended_witness :
    alistLookup "colours" [("colours", [("Red", "#12345")])] =
      some [("Red", "#12345")] ∧
    load_yarn_palette (.parsed [("colours", [("Red", "#12345")])]) =
      .ok ([("Red", "#12345")].map fun p => (pyLower p.1, p.2)) :=
  ⟨by decide,
    (palette_loader_amended [("colours", [("Red", "#12345")])]
      [("Red", "#12345")]).2.2.2 (by decide)⟩


/-- The overwrite sequence of `stitchCell` equals the precedence chain of the
spec: edge test first, then brightness, then the default. -/
theorem stitchCell_eq_ite (p : RGB) (e : ℚ) :
    stitchCell p e =
      if e > 150 then 'x' else if brightnessOf p < 100 then '+' else 'o' := by
  unfold stitchCell
  by_cases h1 : e > 150 <;> by_cases h2 : brightnessOf p < 100 <;> simp [h1, h2]

/-- C3: For every cell, the Stitch Classifier returns exactly one of
`'x'`, `'+'`, `'o'` by the precedence edge-first rule: `'x'` when
`edge > 150` regardless of brightness, else `'+'` when the luma brightness is
strictly below `100`, else `'o'`.  In particular brightness exactly `100`
with edge at most `150` yields `'o'`, and edge exactly `150` never yields
`'x'`. -/
theorem stitch_classifier_precedence (img : Image) (edges : List (List ℚ))
    (r c : ℕ) (hr : r < imgRows img) (hc : c < imgCols img) :
    (((edge_brightness_to_stitch_vectorised img edges).getD r []).getD c 'o' =
      if (edges.getD r []).getD c 0 > 150 then 'x'
      else if brightnessOf (pixel img r c) < 100 then '+' else 'o') ∧
    (((edge_brightness_to_stitch_vectorised img edges).getD r []).getD c 'o' = 'x' ∨
      ((edge_brightness_to_stitch_vectorised img edges).getD r []).getD c 'o' = '+' ∨
      ((edge_brightness_to_stitch_vectorised img edges).getD r []).getD c 'o' = 'o') ∧
    (brightnessOf (pixel img r c) = 100 → ¬(edges.getD r []).getD c 0 > 150 →
      ((edge_brightness_to_stitch_vectorised img edges).getD r []).getD c 'o' = 'o') ∧
    ((edges.getD r []).getD c 0 = 150 →
      ((edge_brightness_to_stitch_vectorised img edges).getD r []).getD c 'o' ≠ 'x') := by
  have hv : ((edge_brightness_to_stitch_vectorised img edges).getD r []).getD c 'o' =
      stitchCell (pixel img r c) ((edges.getD r []).getD c 0) := by
    unfold edge_brightness_to_stitch_vectorised
    rw [getD_map_range _ _ _ _ hr, getD_map_range _ _ _ _ hc]
  rw [hv, stitchCell_eq_ite]
  refine ⟨rfl, ?_, ?_, ?_⟩
  · by_cases h1 : (edges.getD r []).getD c 0 > 150
    · left
      rw [if_pos h1]
    · rw [if_neg h1]
      by_cases h2 : brightnessOf (pixel img r c) < 100
      · right; left
        rw [if_pos h2]
      · right; right
        rw [if_neg h2]
  · intro hb he
    rw [if_neg he, if_neg (by rw [hb]; exact lt_irrefl _)]
  · intro he
    rw [he, if_neg (lt_irrefl _)]
    by_cases h2 : brightnessOf (pixel img r c) < 100
    · rw [if_pos h2]
      decide
    · rw [if_neg h2]
      decide

/-- Witness for C3 at a concrete black pixel with edge strength exactly 150. -/
theorem stitch_classifier_precedence_witness :
    (0 : ℕ) < imgRows [[((0 : ℤ), (0 : ℤ), (0 : ℤ))]] ∧
    (0 : ℕ) < imgCols [[((0 : ℤ), (0 : ℤ), (0 : ℤ))]] ∧
    ((((edge_brightness_to_stitch_vectorised [[((0 : ℤ), (0 : ℤ), (0 : ℤ))]]
            [[(150 : ℚ)]]).getD 0 []).getD 0 'o' =
        if ([[(150 : ℚ)]].getD 0 []).getD 0 0 > 150 then 'x'
        else if brightnessOf (pixel [[((0 : ℤ), (0 : ℤ), (0 : ℤ))]] 0 0) < 100
          then '+' else 'o') ∧
      ((((edge_brightness_to_stitch_vectorised [[((0 : ℤ), (0 : ℤ), (0 : ℤ))]]
            [[(150 : ℚ)]]).getD 0 []).getD 0 'o' = 'x') ∨
        (((edge_brightness_to_stitch_vectorised [[((0 : ℤ), (0 : ℤ), (0 : ℤ))]]
            [[(150 : ℚ)]]).getD 0 []).getD 0 'o' = '+') ∨
        (((edge_brightness_to_stitch_vectorised [[((0 : ℤ), (0 : ℤ), (0 : ℤ))]]
            [[(150 : ℚ)]]).getD 0 []).getD 0 'o' = 'o')) ∧
      (brightnessOf (pixel [[((0 : ℤ), (0 : ℤ), (0 : ℤ))]] 0 0) = 100 →
        ¬([[(150 : ℚ)]].getD 0 []).getD 0 0 > 150 →
        (((edge_brightness_to_stitch_vectorised [[((0 : ℤ), (0 : ℤ), (0 : ℤ))]]
            [[(150 : ℚ)]]).getD 0 []).getD 0 'o' = 'o')) ∧
      (([[(150 : ℚ)]].getD 0 []).getD 0 0 = 150 →
        (((edge_brightness_to_stitch_vectorised [[((0 : ℤ), (0 : ℤ), (0 : ℤ))]]
            [[(150 : ℚ)]]).getD 0 []).getD 0 'o' ≠ 'x'))) :=
  ⟨by decide, by decide,
    stitch_classifier_precedence [[((0 : ℤ), (0 : ℤ), (0 : ℤ))]] [[(150 : ℚ)]]
      0 0 (by decide) (by decide)⟩

/-- C9: For every image and matching edge map (and a parsable non-empty
palette, without which the colour pass fails and no grid is built), the Grid
Assembler produces exactly `R*C` cells whose `(row, col)` pairs are unique,
cover all of `[0,R)×[0,C)`, and are enumerated in row-major order. -/
theorem grid_assembler_row_major (img : Image) (edges : List (List ℚ))
    (palette : List (String × String)) (rgbs : List RGB)
    (hp : parsePalette palette = some rgbs) (hne : rgbs ≠ []) :
    ∃ cells, image_to_stitch_grid img edges palette = .ok cells ∧
      cells.length = imgRows img * imgCols img ∧
      (cells.map fun x => (x.1, x.2.1)).Nodup ∧
      (∀ r, r < imgRows img → ∀ c, c < imgCols img →
        (r, c) ∈ cells.map fun x => (x.1, x.2.1)) ∧
      cells.map (fun x => (x.1, x.2.1)) =
        (List.range (imgRows img)).flatMap fun r =>
          (List.range (imgCols img)).map fun c => (r, c) := by
  obtain ⟨colourArr, hok, _, _, _⟩ := nearest_vectorised_spec img palette rgbs hp hne
  refine ⟨(List.range (imgRows img)).flatMap fun (r : ℕ) =>
      (List.range (imgCols img)).map fun (c : ℕ) =>
        (r, c, ((edge_brightness_to_stitch_vectorised img edges).getD r []).getD c 'o',
          (colourArr.getD r []).getD c ""), ?_, ?_, ?_, ?_, ?_⟩
  · simp only [image_to_stitch_grid, hok]
  · have hpairs : ((((List.range (imgRows img)).flatMap fun (r : ℕ) =>
        (List.range (imgCols img)).map fun (c : ℕ) =>
          (r, c, ((edge_brightness_to_stitch_vectorised img edges).getD r []).getD c 'o',
            (colourArr.getD r []).getD c "")).length)) =
        (((List.range (imgRows img)).flatMap fun r =>
          (List.range (imgCols img)).map fun c => (r, c)).length) := by
      rw [List.length_flatMap, List.length_flatMap]
      simp [Function.comp_def]
    rw [hpairs, List.length_flatMap]
    simp [Function.comp_def, List.map_const', List.sum_replicate, smul_eq_mul, mul_comm]
  · rw [List.map_flatMap]
    have h2 : ((List.range (imgRows img)).flatMap fun r =>
        (List.map (fun x => (x.1, x.2.1))
          ((List.range (imgCols img)).map fun (c : ℕ) =>
            (r, c, ((edge_brightness_to_stitch_vectorised img edges).getD r []).getD c 'o',
              (colourArr.getD r []).getD c "")))) =
        (List.range (imgRows img)) ×ˢ (List.range (imgCols img)) := by
      congr 1
      funext r
      rw [List.map_map]
      rfl
    rw [h2]
    exact List.Nodup.product (List.nodup_range _) (List.nodup_range _)
  · intro r hr c hc
    rw [List.map_flatMap, List.mem_flatMap]
    refine ⟨r, by simpa using hr, ?_⟩
    rw [List.map_map]
    have : ((fun x => (x.1, x.2.1)) ∘ fun (c : ℕ) =>
        (r, c, ((edge_brightness_to_stitch_vectorised img edges).getD r []).getD c 'o',
          (colourArr.getD r []).getD c "")) = fun (c : ℕ) => (r, c) := rfl
    rw [this]
    simpa using hc
  · rw [List.map_flatMap]
    congr 1
    funext r
    rw [List.map_map]
    rfl

/-- Witness for C9 on a concrete 1×2 image with a single-entry palette. -/
theorem grid_assembler_row_major_witness :
    parsePalette [("black", "#000000")] = some [(0, 0, 0)] ∧
    ([((0 : ℤ), (0 : ℤ), (0 : ℤ))] ≠ ([] : List RGB)) ∧
    ∃ cells, image_to_stitch_grid [[(9, 9, 9), (200, 200, 200)]] [[(0 : ℚ), 200]]
        [("black", "#000000")] = .ok cells ∧
      cells.length = imgRows [[((9 : ℤ), (9 : ℤ), (9 : ℤ)),
          ((200 : ℤ), (200 : ℤ), (200 : ℤ))]] *
        imgCols [[((9 : ℤ), (9 : ℤ), (9 : ℤ)), ((200 : ℤ), (200 : ℤ), (200 : ℤ))]] ∧
      (cells.map fun x => (x.1, x.2.1)).Nodup ∧
      (∀ r, r < imgRows [[((9 : ℤ), (9 : ℤ), (9 : ℤ)),
            ((200 : ℤ), (200 : ℤ), (200 : ℤ))]] →
        ∀ c, c < imgCols [[((9 : ℤ), (9 : ℤ), (9 : ℤ)),
            ((200 : ℤ), (200 : ℤ), (200 : ℤ))]] →
          (r, c) ∈ cells.map fun x => (x.1, x.2.1)) ∧
      cells.map (fun x => (x.1, x.2.1)) =
        (List.range (imgRows [[((9 : ℤ), (9 : ℤ), (9 : ℤ)),
            ((200 : ℤ), (200 : ℤ), (200 : ℤ))]])).flatMap fun r =>
          (List.range (imgCols [[((9 : ℤ), (9 : ℤ), (9 : ℤ)),
              ((200 : ℤ), (200 : ℤ), (200 : ℤ))]])).map fun c => (r, c) :=
  ⟨by decide, by decide,
    grid_assembler_row_major [[(9, 9, 9), (200, 200, 200)]] [[(0 : ℚ), 200]]
      [("black", "#000000")] [(0, 0, 0)] (by decide) (by decide)⟩

/-- The spec's windowed sum with kernel `Kx` expands to exactly the unrolled
horizontal gradient of the code. -/
theorem convAt_Kx_eq_gxAt (img : Image) (r c : ℕ) :
    convAt Kx img r c = gxAt img r c := by
  unfold convAt gxAt
  simp only [Finset.sum_range_succ, Finset.sum_range_zero, Kx]
  norm_num [List.getD]
  ring

/-- The spec's windowed sum with kernel `Ky` expands to exactly the unrolled
vertical gradient of the code. -/
theorem convAt_Ky_eq_gyAt (img : Image) (r c : ℕ) :
    convAt Ky img r c = gyAt img r c := by
  unfold convAt gyAt
  simp only [Finset.sum_range_succ, Finset.sum_range_zero, Ky]
  norm_num [List.getD]
  ring

/-- C1: For every image, the Edge Detector returns a map of the same R×C
shape as its input whose cell `(r, c)` equals `sqrt(gx² + gy²)`, where `gx`
and `gy` come from the spec pipeline — luma grayscale, replicate padding by
one cell per border, and 3×3 window sums against
`Kx = [[-1,0,1],[-2,0,2],[-1,0,1]]` and `Ky = [[1,2,1],[0,0,0],[-1,-2,-1]]`
(`convAt`).  Determinism is immediate: `compute_edges` is a pure function of
the image.  (The claim restricts channels to 0–255; the theorem holds for
all integer channels, which is stronger.) -/
theorem edge_detector_spec (img : Image) (r c : ℕ)
    (hr : r < imgRows img) (hc : c < imgCols img) :
    (compute_edges img).length = imgRows img ∧
    (∀ row ∈ compute_edges img, row.length = imgCols img) ∧
    ((compute_edges img).getD r []).getD c 0 =
      Real.sqrt (((convAt Kx img r c : ℚ) : ℝ) ^ 2 + ((convAt Ky img r c : ℚ) : ℝ) ^ 2) := by
  refine ⟨by simp [compute_edges], ?_, ?_⟩
  · intro row hrow
    unfold compute_edges at hrow
    obtain ⟨i, hi, rfl⟩ := List.mem_map.mp hrow
    simp
  · unfold compute_edges
    rw [getD_map_range _ _ _ _ hr, getD_map_range _ _ _ _ hc,
      convAt_Kx_eq_gxAt, convAt_Ky_eq_gyAt]

/-- Witness for C1 at a concrete 1×1 image. -/
theorem edge_detector_spec_witness :
    (0 : ℕ) < imgRows [[((7 : ℤ), (7 : ℤ), (7 : ℤ))]] ∧
    (0 : ℕ) < imgCols [[((7 : ℤ), (7 : ℤ), (7 : ℤ))]] ∧
    ((compute_edges [[((7 : ℤ), (7 : ℤ), (7 : ℤ))]]).length =
        imgRows [[((7 : ℤ), (7 : ℤ), (7 : ℤ))]] ∧
      (∀ row ∈ compute_edges [[((7 : ℤ), (7 : ℤ), (7 : ℤ))]],
        row.length = imgCols [[((7 : ℤ), (7 : ℤ), (7 : ℤ))]]) ∧
      ((compute_edges [[((7 : ℤ), (7 : ℤ), (7 : ℤ))]]).getD 0 []).getD 0 0 =
        Real.sqrt (((convAt Kx [[((7 : ℤ), (7 : ℤ), (7 : ℤ))]] 0 0 : ℚ) : ℝ) ^ 2 +
          ((convAt Ky [[((7 : ℤ), (7 : ℤ), (7 : ℤ))]] 0 0 : ℚ) : ℝ) ^ 2)) :=
  ⟨by decide, by decide,
    edge_detector_spec [[((7 : ℤ), (7 : ℤ), (7 : ℤ))]] 0 0 (by decide) (by decide)⟩
